import Mathlib

/-!
Verification development for the synchronization and project-resolution core of
the sourcegraph/langserver-typescript repository.

The definitions below are shallow embeddings of the TypeScript source:
`FileSystemUpdater` (fs.ts), `ProjectManager`, `ProjectConfiguration`
(project-manager.ts).  Asynchronous, stateful code is embedded as an explicit
state machine: a `SyncState` record and a deterministic `step` function over an
`Event` type whose constructors correspond to the observable actions of the
code (calling `ensure`, an in-flight fetch settling, local edit notifications,
invalidation).  Promise identity is modelled by a natural-number fetch id drawn
from a counter, so that "two callers share the same promise" becomes "both
calls return the same id".

The `InMemoryFileSystem` class (memfs.ts) is not part of the available source;
where its behavior is needed it is modelled from the specification, and each
such definition carries a doc comment saying so.
-/

namespace LangServer

/-- Update of a `String`-keyed partial map represented as a function. -/
def upd {α : Type} (m : String → Option α) (k : String) (v : Option α) :
    String → Option α :=
  fun x => if x = k then v else m x

/-- Update of a `Nat`-keyed partial map represented as a function. -/
def updN {α : Type} (m : Nat → Option α) (k : Nat) (v : Option α) :
    Nat → Option α :=
  fun x => if x = k then v else m x

/-- Scan for Node's `path.posix.dirname`: walking the characters from the end
of the path (indices descending, stopping before index 0), skip any trailing
slashes, then skip the final path component; the index of the `/` hit next is
where the directory name ends.  Returns `none` when no such slash exists. -/
def findDirEnd : List (Nat × Char) → Bool → Option Nat
  | [], _ => none
  | (i, c) :: rest, matchedSlash =>
    if i = 0 then none
    else if c = '/' then
      if matchedSlash then findDirEnd rest matchedSlash else some i
    else findDirEnd rest false

/-- Embedding of Node's `path.posix.dirname`, the exact algorithm used by the
source when it climbs directory trees (`ProjectManager.getConfiguration`,
`createConfigurations`). -/
def posixDirname (p : String) : String :=
  match p.data with
  | [] => "."
  | c0 :: _ =>
    let hasRoot := c0 = '/'
    match findDirEnd (p.data.enum).reverse true with
    | none => if hasRoot then "/" else "."
    | some e =>
      if hasRoot ∧ e = 1 then "//"
      else String.mk (p.data.take e)

/-- Directory of a workspace-relative path as computed by the source: the
posix dirname with the `.` result (meaning "workspace root") mapped to the
empty string, exactly as `if (dir === '.') dir = ''` does. -/
def dirOfRel (p : String) : String :=
  let d := posixDirname p
  if d = "." then "" else d

/-- Status of a fetch promise: still pending, fulfilled, or rejected. -/
inductive FetchStatus
  | inflight
  | succeeded
  | failed
deriving DecidableEq

/-- Combined state of `FileSystemUpdater` (fs.ts) and the in-memory file
system it writes into, together with the `ProjectManager` per-file version
map.  Paths and URIs are identified (the spec requires the two representations
to be convertible without loss).

Fields from `FileSystemUpdater`:
* `fetches` — the single-flight table `Map<string, Promise<void>>`, with the
  promise represented by its fetch id;
* `fetchStatus` — how each promise (content or structure fetch) has settled;
* `nextId` — fresh promise-id supply;
* `contentCount` — number of `remoteFs.getTextDocumentContent` calls per URI;
* `structureFetch` / `listFilesCalls` — the structure-fetch cell and the
  number of `remoteFs.getWorkspaceFiles` calls.

Fields modelled from the spec (memfs.ts, the `InMemoryFileSystem`, is not in
the available source): `files` maps a path to `none` (unknown), `some none`
(placeholder) or `some (some text)` (real content); `openFiles` is the
edited/open marker; `versions` is `ProjectManager.versions` (src), bumped by
the local edit notifications. -/
structure SyncState where
  fetches : String → Option Nat
  fetchStatus : Nat → Option FetchStatus
  nextId : Nat
  contentCount : String → Nat
  structureFetch : Option Nat
  listFilesCalls : Nat
  files : String → Option (Option String)
  versions : String → Option Nat
  openFiles : String → Bool

/-- Initial state: empty single-flight table, no structure fetch, empty file
system, no versions. -/
def initState : SyncState where
  fetches := fun _ => none
  fetchStatus := fun _ => none
  nextId := 0
  contentCount := fun _ => 0
  structureFetch := none
  listFilesCalls := 0
  files := fun _ => none
  versions := fun _ => none
  openFiles := fun _ => false

/-- Observable actions of the synchronization layer.  Settling events carry
the id of the promise that settles, because in the source a fetch completes
and runs its continuation regardless of what the single-flight table holds at
that moment. -/
inductive Event
  | ensure (uri : String)
  | fetchSuccess (id : Nat) (uri : String) (content : String)
  | fetchFailure (id : Nat) (uri : String)
  | invalidate (uri : String)
  | ensureStructure
  | structureSuccess (id : Nat) (uris : List String)
  | structureFailure (id : Nat)
  | invalidateStructure
  | didOpen (uri : String) (text : String)
  | didChange (uri : String) (text : String)
  | didClose (uri : String)
  | didSave (uri : String)
deriving DecidableEq

/-- Embedding of `FileSystemUpdater.fetch` (fs.ts): create the fetch promise
(whose body will call `remoteFs.getTextDocumentContent` exactly once) and
store it in the single-flight table under the URI. -/
def startFetch (s : SyncState) (uri : String) : SyncState :=
  { s with
    fetches := upd s.fetches uri (some s.nextId)
    fetchStatus := updN s.fetchStatus s.nextId (some .inflight)
    contentCount := fun x => if x = uri then s.contentCount x + 1 else s.contentCount x
    nextId := s.nextId + 1 }

/-- Promise returned by `FileSystemUpdater.ensure` (fs.ts):
`this.fetches.get(uri.href) || this.fetch(uri, span)` — the cached promise if
one exists, else the one a fresh `fetch` would create. -/
def ensureResult (s : SyncState) (uri : String) : Nat :=
  match s.fetches uri with
  | some id => id
  | none => s.nextId

/-- Promise returned by `FileSystemUpdater.ensureStructure` (fs.ts):
`this.structureFetch || this.fetchStructure(span)`. -/
def ensureStructureResult (s : SyncState) : Nat :=
  match s.structureFetch with
  | some id => id
  | none => s.nextId

/-- Modelled from the spec: `VirtualFileSystem.add(path)` without content
inserts a placeholder record for a path (used by the structure fetch); an
existing record is kept. -/
def addPlaceholder (files : String → Option (Option String)) (uri : String) :
    String → Option (Option String) :=
  match files uri with
  | some c => upd files uri (some c)
  | none => upd files uri (some none)

/-- Placeholder insertion for every URI a structure fetch discovered
(`for (const uri of uris) this.inMemoryFs.add(uri)` in `fetchStructure`). -/
def addPlaceholders (files : String → Option (Option String)) :
    List String → (String → Option (Option String))
  | [] => files
  | u :: us => addPlaceholders (addPlaceholder files u) us

/-- Embedding of `ProjectManager.didChange` (project-manager.ts): forward the
edit to the file system and bump the file version
(`this.versions.set(filePath, ++version)` with `version` defaulting to 0).
The file-system half is modelled from the spec: a local edit stores the text
as real content and marks the file edited/open. -/
def didChangeState (s : SyncState) (uri text : String) : SyncState :=
  { s with
    files := upd s.files uri (some (some text))
    openFiles := fun x => if x = uri then true else s.openFiles x
    versions := upd s.versions uri (some ((s.versions uri).getD 0 + 1)) }

/-- One step of the synchronization layer.  Each arm is the embedding of the
corresponding source operation:
* `ensure` — `FileSystemUpdater.ensure`: table hit returns the cached promise
  (no state change), miss runs `fetch`;
* `fetchSuccess` — the body of the promise built in `fetch` reaches
  `this.inMemoryFs.add(uri, content)`: the fetched content is written
  unconditionally (the source performs no version comparison);
* `fetchFailure` — the `catch` in `fetch`: `this.fetches.delete(uri.href)`
  and the promise rejects;
* `invalidate` / `invalidateStructure` — the eponymous methods;
* `ensureStructure` / `structureSuccess` / `structureFailure` — the
  structure-fetch cell: a failing structure fetch clears
  `this.structureFetch`;
* `didOpen`/`didChange`/`didClose`/`didSave` — `ProjectManager`'s local edit
  notifications: `didOpen` delegates to `didChange`; `didClose` bumps the
  version and unmarks the file; `didSave` only forwards to the file system
  and touches no version. -/
def step (s : SyncState) : Event → SyncState
  | .ensure uri =>
    match s.fetches uri with
    | some _ => s
    | none => startFetch s uri
  | .fetchSuccess id uri content =>
    if s.fetchStatus id = some .inflight then
      { s with
        fetchStatus := updN s.fetchStatus id (some .succeeded)
        files := upd s.files uri (some (some content)) }
    else s
  | .fetchFailure id uri =>
    if s.fetchStatus id = some .inflight then
      { s with
        fetchStatus := updN s.fetchStatus id (some .failed)
        fetches := upd s.fetches uri none }
    else s
  | .invalidate uri => { s with fetches := upd s.fetches uri none }
  | .ensureStructure =>
    match s.structureFetch with
    | some _ => s
    | none =>
      { s with
        structureFetch := some s.nextId
        fetchStatus := updN s.fetchStatus s.nextId (some .inflight)
        listFilesCalls := s.listFilesCalls + 1
        nextId := s.nextId + 1 }
  | .structureSuccess id uris =>
    if s.fetchStatus id = some .inflight then
      { s with
        fetchStatus := updN s.fetchStatus id (some .succeeded)
        files := addPlaceholders s.files uris }
    else s
  | .structureFailure id =>
    if s.fetchStatus id = some .inflight then
      { s with
        fetchStatus := updN s.fetchStatus id (some .failed)
        structureFetch := none }
    else s
  | .invalidateStructure => { s with structureFetch := none }
  | .didOpen uri text => didChangeState s uri text
  | .didChange uri text => didChangeState s uri text
  | .didClose uri =>
    { s with
      openFiles := fun x => if x = uri then false else s.openFiles x
      versions := upd s.versions uri (some ((s.versions uri).getD 0 + 1)) }
  | .didSave _ => s

/-- Run a list of events from a state. -/
def runTrace (s : SyncState) (es : List Event) : SyncState :=
  es.foldl step s

/-- Modelled from the spec: `VirtualFileSystem.getContent(path)` returns the
text when real content is present, and fails (`none`) on a placeholder or an
absent record. -/
def getContent (s : SyncState) (uri : String) : Option String :=
  match s.files uri with
  | some (some t) => some t
  | _ => none

/-- Events that can remove the single-flight table entry of `p`: an explicit
invalidation or a failing fetch for `p`. -/
def touches (p : String) : Event → Bool
  | .invalidate q => q = p
  | .fetchFailure _ q => q = p
  | _ => false

/-- State threaded through one invocation of the dependency crawl: the `seen`
set (`Set<string>` in the source) and, for the analysis, the list of URIs the
crawl visited (each visit performs `seen.add(uri)` followed by
`this.updater.ensure(uri, span)`). -/
structure CrawlState where
  seen : List String
  visits : List String
deriving DecidableEq

/-- Action at the head of every `ensureTransitiveFileDependencies` call:
`seen.add(uri)` (a set insertion) and the `ensure` fetch of the URI, logged
in `visits`. -/
def visit (st : CrawlState) (uri : String) : CrawlState :=
  { seen := if st.seen.contains uri then st.seen else st.seen ++ [uri]
    visits := st.visits ++ [uri] }

/-- Embedding of `ProjectManager.ensureTransitiveFileDependencies`
(project-manager.ts).  `imports` abstracts the import extraction and module
resolution performed via the TypeScript services (`ts.preProcessFile`,
`ts.resolveModuleName`, reference-path resolution): it yields the file's
resolved import paths, already deduplicated (the source collects them in a
`Set<string>`).  The source adds `uri` to `seen`, ensures its content, and if
`maxDepth > 0` recurses into EVERY resolved import path with `maxDepth - 1` —
the recursion is not guarded by a `seen` membership test (`seen` is written,
never read).  `Promise.all` over the import set is sequentialized as a fold;
per-branch failures are swallowed by the source and do not alter the visit
structure. -/
def ensureTransitiveFileDependencies (imports : String → List String) :
    Nat → String → CrawlState → CrawlState
  | 0, uri, st => visit st uri
  | d + 1, uri, st =>
    (imports uri).foldl
      (fun acc p => ensureTransitiveFileDependencies imports d p acc)
      (visit st uri)

/-- Cyclic two-file import graph: a.ts imports b.ts and b.ts imports a.ts. -/
def cycleImports : String → List String :=
  fun u => if u = "a.ts" then ["b.ts"] else if u = "b.ts" then ["a.ts"] else []

/-- Entry registered in the `configs` map of `ProjectManager`: either a
configuration created for a discovered `[tj]sconfig.json` marker file, or the
catch-all root configuration built from the inline default
`configContent`. -/
inductive ConfigEntry
  | fromMarker (configFilePath : String)
  | catchAll
deriving DecidableEq

/-- Test of the source regex `(^|\/)[tj]sconfig\.json$` on a relative path,
computed on the character list so that it evaluates inside the kernel. -/
def isMarkerPath (p : String) : Bool :=
  p.data = "tsconfig.json".data ||
    "/tsconfig.json".data.isSuffixOf p.data ||
    p.data = "jsconfig.json".data ||
    "/jsconfig.json".data.isSuffixOf p.data

/-- Occurrence of `pat` as a contiguous subsequence of a character list. -/
def containsSeq (pat : List Char) : List Char → Bool
  | [] => pat.isPrefixOf []
  | c :: rest => pat.isPrefixOf (c :: rest) || containsSeq pat rest

/-- Test of the source regex `(^|\/)node_modules\//` on a relative path,
computed on the character list so that it evaluates inside the kernel. -/
def inNodeModules (p : String) : Bool :=
  "node_modules/".data.isPrefixOf p.data ||
    containsSeq "/node_modules/".data p.data

/-- Marker file sitting in the workspace root directory itself (its directory
is the empty relative path), outside node_modules. -/
def rootMarker (p : String) : Bool :=
  isMarkerPath p && !inNodeModules p && dirOfRel p = ""

/-- Loop body of `ProjectManager.createConfigurations` for one URI: if the
workspace-relative path matches the marker regex and is not under
node_modules, register a configuration for its directory when none exists and
record the directory in `rootdirs`. -/
def createConfigStep (acc : (String → Option ConfigEntry) × List String)
    (relativeFilePath : String) : (String → Option ConfigEntry) × List String :=
  if isMarkerPath relativeFilePath && !inNodeModules relativeFilePath then
    let dir := dirOfRel relativeFilePath
    let cfgs :=
      if (acc.1 dir).isNone then
        upd acc.1 dir (some (.fromMarker relativeFilePath))
      else acc.1
    (cfgs, if acc.2.contains dir then acc.2 else acc.2 ++ [dir])
  else acc

/-- Embedding of `ProjectManager.createConfigurations` (project-manager.ts).
The input is the list of workspace-relative paths of the URIs in the in-memory
file system (`path_.posix.relative(this.rootPath, util.uri2path(uri))`; the
URI-to-relative-path conversion lives in util.ts, not in the available source,
and the spec guarantees it is lossless, so the relative representation is used
directly).  After scanning all paths, the catch-all root configuration is
added exactly when `!rootdirs.has('') && !this.configs.has('')`. -/
def createConfigurations (relPaths : List String)
    (configs0 : String → Option ConfigEntry) :
    (String → Option ConfigEntry) × List String :=
  let r := relPaths.foldl createConfigStep (configs0, [])
  (if !(r.2.contains "") && (r.1 "").isNone then
      upd r.1 "" (some .catchAll)
    else r.1,
   r.2)

/-- Embedding of the `while (dir && dir !== this.rootPath)` loop of
`ProjectManager.getConfiguration` (project-manager.ts).  The walk starts at
the file path itself, looks the current string up in `configs`, and steps to
`path_.posix.dirname(dir)` with `.` mapped to the empty string.  When the
loop exits it falls back to `configs.get('')` and otherwise throws.  Results:
`none` — the loop does not terminate within `fuel` steps (the source loops
forever, e.g. on an absolute path that never reaches `rootPath`);
`some none` — the source throws `TypeScript config file not found`;
`some (some c)` — the source returns configuration `c`. -/
def getConfigurationAux (configs : String → Option ConfigEntry)
    (rootPath : String) : Nat → String → Option (Option ConfigEntry)
  | 0, _ => none
  | fuel + 1, dir =>
    if dir = "" ∨ dir = rootPath then some (configs "")
    else
      match configs dir with
      | some c => some (some c)
      | none => getConfigurationAux configs rootPath fuel (dirOfRel dir)

/-- Embedding of `ProjectManager.getConfiguration`, with fuel sufficient for
any workspace-relative path (each loop step shortens a relative path). -/
def getConfiguration (configs : String → Option ConfigEntry)
    (rootPath filePath : String) : Option (Option ConfigEntry) :=
  getConfigurationAux configs rootPath (filePath.length + 1) filePath

/-- Parsed configuration object (the `config` produced by
`ts.parseConfigFileTextToJson`); its payload is irrelevant to the properties
proved here. -/
structure ConfigJson where
  allowJs : Bool := false
deriving DecidableEq

/-- State of `InMemoryLanguageServiceHost` (project-manager.ts) as far as the
claims need it: the constructor sets `projectVersion` to 1, stores the
expected file list and starts with an empty materialized file list. -/
structure LanguageServiceHostState where
  projectVersion : Nat
  expectedFilePaths : List String
  filePaths : List String
deriving DecidableEq

/-- Embedding of the `ProjectConfiguration` class (project-manager.ts).
Identity fields are set by the constructor; the remaining fields are the
memoized state: the three cached promises (`initialized`,
`ensuredBasicFiles`, `ensuredAllFiles`, each `none` while unset, otherwise
caching the settled outcome) and the `service`/`program`/`host` objects.
`versions` is the version map shared with `ProjectManager` (held by
reference); `fs` is a handle to the shared in-memory file system. -/
structure ProjectConfiguration where
  fs : String
  rootFilePath : String
  versions : String → Option Nat
  configFilePath : String
  configContent : Option ConfigJson
  traceModuleResolution : Bool
  initialized : Option (Except String Unit)
  ensuredBasicFiles : Option (Except String Unit)
  ensuredAllFiles : Option (Except String Unit)
  service : Option Unit
  program : Option Unit
  host : Option LanguageServiceHostState

/-- Embedding of the `ProjectConfiguration` constructor: stores the identity
fields, leaves every memoized field unset. -/
def ProjectConfiguration.make (fs rootFilePath : String)
    (versions : String → Option Nat) (configFilePath : String)
    (configContent : Option ConfigJson) (traceModuleResolution : Bool) :
    ProjectConfiguration where
  fs := fs
  rootFilePath := rootFilePath
  versions := versions
  configFilePath := configFilePath
  configContent := configContent
  traceModuleResolution := traceModuleResolution
  initialized := none
  ensuredBasicFiles := none
  ensuredAllFiles := none
  service := none
  program := none
  host := none

/-- Embedding of `ProjectConfiguration.reset` (project-manager.ts): sets
`initialized`, `ensuredBasicFiles`, `ensuredAllFiles`, `service`, `program`
and `host` to undefined and touches nothing else. -/
def ProjectConfiguration.reset (c : ProjectConfiguration) :
    ProjectConfiguration :=
  { c with
    initialized := none
    ensuredBasicFiles := none
    ensuredAllFiles := none
    service := none
    program := none
    host := none }

/-- Success path of `ProjectConfiguration.init`: build the language service
host (constructor arguments `(this.fs.path, options, this.fs, expFiles,
this.versions)`), the service and the program, and cache the resolved
promise. -/
def ProjectConfiguration.initOk (c : ProjectConfiguration)
    (expFiles : List String) (didParse : Bool) :
    ProjectConfiguration × Except String Unit × Bool :=
  ({ c with
      initialized := some (.ok ())
      host := some ⟨1, expFiles, []⟩
      service := some ()
      program := some () },
   .ok (), didParse)

/-- Embedding of `ProjectConfiguration.init` (project-manager.ts).  When
`initialized` is set, the cached promise is returned and nothing is parsed.
Otherwise, with no inline `configContent`, the configuration file text is
parsed — `parsedFile` stands for the outcome of
`ts.parseConfigFileTextToJson(this.configFilePath, this.fs.readFile(...))` —
and on a parse error the promise is REJECTED while staying stored in
`this.initialized` (the source never clears `initialized` on failure);
`expFiles` stands for the expected-file list computed by
`ts.parseJsonConfigFileContent` plus the global declaration files found under
node_modules.  The returned boolean records whether a parse of the
configuration source was performed. -/
def ProjectConfiguration.init (c : ProjectConfiguration)
    (parsedFile : Except String ConfigJson) (expFiles : List String) :
    ProjectConfiguration × Except String Unit × Bool :=
  match c.initialized with
  | some r => (c, r, false)
  | none =>
    match c.configContent with
    | none =>
      match parsedFile with
      | .error msg =>
        ({ c with initialized := some (.error msg) }, .error msg, true)
      | .ok _ => c.initOk expFiles true
    | some _ => c.initOk expFiles false

/-- Embedding of `ProjectConfiguration.ensureConfigFile`: `return this.init()`. -/
def ProjectConfiguration.ensureConfigFile (c : ProjectConfiguration)
    (parsedFile : Except String ConfigJson) (expFiles : List String) :
    ProjectConfiguration × Except String Unit × Bool :=
  c.init parsedFile expFiles

/-- State after one `ensure` call for `a.ts` from the initial state: fetch
id 0 is in flight for `a.ts` and the content source has been called once. -/
def syncS1 : SyncState := step initState (.ensure "a.ts")

/-- Window trace for the single-flight property: two more `ensure` calls for
`a.ts` around an unrelated fetch and the successful completion of fetch 0. -/
def traceC3 : List Event :=
  [.ensure "a.ts", .ensure "b.ts", .fetchSuccess 0 "a.ts" "X", .ensure "a.ts"]

/-- Race trace: a fetch for `a.ts` starts, a local edit lands while it is in
flight, then the fetch completes with the remote content. -/
def raceTrace : List Event :=
  [.ensure "a.ts", .didChange "a.ts" "EDITED", .fetchSuccess 0 "a.ts" "REMOTE"]

/-- State with a structure fetch (id 0) in flight. -/
def sStruct : SyncState := step initState .ensureStructure

/-- State in which `a.ts` has been edited once (version 1). -/
def verState : SyncState := step initState (.didChange "a.ts" "x")

/-- Registry with no configurations. -/
def emptyConfigs : String → Option ConfigEntry := fun _ => none

/-- Registry holding exactly one configuration, rooted at `proj`. -/
def cfgProjOnly : String → Option ConfigEntry :=
  fun x => if x = "proj" then some (.fromMarker "proj/tsconfig.json") else none

/-- Registry holding exactly the catch-all root configuration. -/
def cfgRootOnly : String → Option ConfigEntry :=
  fun x => if x = "" then some .catchAll else none

/-- Freshly constructed project configuration reading `tsconfig.json`. -/
def cConfC5 : ProjectConfiguration :=
  ProjectConfiguration.make "vfs" "/" (fun _ => none) "tsconfig.json" none false

/-- The same configuration after its first `init` hit a parse error. -/
def cConfC5Failed : ProjectConfiguration :=
  (cConfC5.ensureConfigFile (.error "Cannot parse tsconfig.json") []).1

/-- Reading an updated map at the updated key. -/
theorem upd_self {α : Type} (m : String → Option α) (k : String) (v : Option α) :
    upd m k v k = v := by simp [upd]

/-- Reading an updated map elsewhere. -/
theorem upd_other {α : Type} (m : String → Option α) (k x : String)
    (v : Option α) (h : x ≠ k) : upd m k v x = m x := by simp [upd, h]

/-- An `ensure` call with no cached entry runs `fetch`. -/
theorem ensure_starts_fetch (s : SyncState) (p : String)
    (h : s.fetches p = none) : step s (.ensure p) = startFetch s p := by
  simp [step, h]

/-- An `ensure` call with a cached entry is a no-op. -/
theorem ensure_cached (s : SyncState) (p : String) (id : Nat)
    (h : s.fetches p = some id) : step s (.ensure p) = s := by
  simp [step, h]

/-- Preservation helper: any event that is neither an invalidation of `p` nor
a failing fetch for `p` keeps the single-flight table entry of `p` and issues
no new content-source call for `p`. -/
theorem step_keeps_entry (s : SyncState) (e : Event) (p : String) (id : Nat)
    (hentry : s.fetches p = some id) (hsafe : touches p e = false) :
    (step s e).fetches p = some id ∧ (step s e).contentCount p = s.contentCount p := by
  cases e with
  | ensure uri =>
    by_cases h : s.fetches uri = none
    · have hpu : p ≠ uri := by
        intro hq
        rw [hq, h] at hentry
        exact Option.noConfusion hentry
      simp [step, h, startFetch, upd, hpu, hentry]
    · obtain ⟨v, hv⟩ := Option.ne_none_iff_exists'.mp h
      simp [step, hv, hentry]
  | fetchSuccess i uri content =>
    by_cases h : s.fetchStatus i = some .inflight <;>
      simp [step, h, hentry]
  | fetchFailure i uri =>
    have hqu : ¬ (uri = p) := by
      simpa [touches] using hsafe
    by_cases h : s.fetchStatus i = some .inflight <;>
      simp [step, h, upd, hentry, Ne.symm hqu]
  | invalidate uri =>
    have hqu : ¬ (uri = p) := by
      simpa [touches] using hsafe
    simp [step, upd, hentry, Ne.symm hqu]
  | ensureStructure =>
    cases h : s.structureFetch <;> simp [step, h, hentry]
  | structureSuccess i uris =>
    by_cases h : s.fetchStatus i = some .inflight <;>
      simp [step, h, hentry]
  | structureFailure i =>
    by_cases h : s.fetchStatus i = some .inflight <;>
      simp [step, h, hentry]
  | invalidateStructure => simp [step, hentry]
  | didOpen uri text => simp [step, didChangeState, hentry]
  | didChange uri text => simp [step, didChangeState, hentry]
  | didClose uri => simp [step, hentry]
  | didSave uri => simp [step, hentry]

/-- Claim C3: while the fetch entry for a path is present (a fetch in flight,
or completed successfully), every further `ensure` call for that path along
any trace free of invalidations and fetch failures for that path returns the
same cached promise, the content source is not called again for the path, and
the entry stays cached. -/
theorem ensure_single_flight (s : SyncState) (p : String) (id : Nat)
    (es : List Event) (hentry : s.fetches p = some id)
    (hsafe : ∀ e ∈ es, touches p e = false) :
    (runTrace s es).fetches p = some id ∧
    (runTrace s es).contentCount p = s.contentCount p ∧
    ensureResult (runTrace s es) p = id ∧
    step (runTrace s es) (.ensure p) = runTrace s es := by
  induction es generalizing s with
  | nil =>
    refine ⟨hentry, rfl, ?_, ?_⟩
    · simp [runTrace, ensureResult, hentry]
    · simp [runTrace, step, hentry]
  | cons e es ih =>
    have hsafe₁ : touches p e = false := hsafe e (List.mem_cons_self e es)
    have hsafe₂ : ∀ e₂ ∈ es, touches p e₂ = false :=
      fun e₂ h₂ => hsafe e₂ (List.mem_cons_of_mem e h₂)
    obtain ⟨hkeep, hcount⟩ := step_keeps_entry s e p id hentry hsafe₁
    have hrun : runTrace s (e :: es) = runTrace (step s e) es := rfl
    obtain ⟨h₁, h₂, h₃, h₄⟩ := ih (step s e) hkeep hsafe₂
    exact ⟨by rw [hrun]; exact h₁,
           by rw [hrun, h₂, hcount],
           by rw [hrun]; exact h₃,
           by rw [hrun]; exact h₄⟩

/-- Witness for C3: a concrete window for `a.ts` starting right after its
fetch began, containing two further `ensure` calls for `a.ts`, an unrelated
fetch, and the successful completion of fetch 0. -/
theorem ensure_single_flight_witness :
    (runTrace syncS1 traceC3).fetches "a.ts" = some 0 ∧
    (runTrace syncS1 traceC3).contentCount "a.ts" = syncS1.contentCount "a.ts" ∧
    ensureResult (runTrace syncS1 traceC3) "a.ts" = 0 ∧
    step (runTrace syncS1 traceC3) (.ensure "a.ts") = runTrace syncS1 traceC3 :=
  ensure_single_flight syncS1 "a.ts" 0 traceC3 (by decide) (by decide)

/-- Claim C4: the structure fetch is single-flight.  With a snapshot present
(in flight or completed), `ensureStructure` returns the existing promise and
changes nothing — in particular `getWorkspaceFiles` is not called again; a
successful completion keeps the snapshot cached; a failing completion clears
it, and the `ensureStructure` call after the failure performs a fresh file
listing. -/
theorem ensureStructure_single_flight (s : SyncState) (id : Nat)
    (h : s.structureFetch = some id) :
    step s .ensureStructure = s ∧
    ensureStructureResult s = id ∧
    (∀ i us, (step s (.structureSuccess i us)).structureFetch = some id) ∧
    (s.fetchStatus id = some .inflight →
      (step s (.structureFailure id)).structureFetch = none ∧
      (step (step s (.structureFailure id)) .ensureStructure).listFilesCalls
        = s.listFilesCalls + 1) := by
  refine ⟨by simp [step, h], by simp [ensureStructureResult, h], ?_, ?_⟩
  · intro i us
    by_cases hi : s.fetchStatus i = some .inflight <;> simp [step, hi, h]
  · intro hst
    constructor
    · simp [step, hst]
    · simp [step, hst]

/-- Witness for C4 at the state where structure fetch 0 is in flight. -/
theorem ensureStructure_single_flight_witness :
    step sStruct .ensureStructure = sStruct ∧
    ensureStructureResult sStruct = 0 ∧
    (∀ i us, (step sStruct (.structureSuccess i us)).structureFetch = some 0) ∧
    (sStruct.fetchStatus 0 = some .inflight →
      (step sStruct (.structureFailure 0)).structureFetch = none ∧
      (step (step sStruct (.structureFailure 0)) .ensureStructure).listFilesCalls
        = sStruct.listFilesCalls + 1) :=
  ensureStructure_single_flight sStruct 0 (by decide)

/-- Claim C6: when the in-flight fetch for a path fails, its entry is removed
from the single-flight table and the promise is recorded as rejected (the
error is re-raised to the sharers of the promise), and the next `ensure` call
for the path starts a fresh fetch — one new content-source call — rather than
returning the cached failure. -/
theorem fetch_failure_retries (s : SyncState) (p : String) (id : Nat)
    (_hentry : s.fetches p = some id)
    (hstat : s.fetchStatus id = some .inflight) :
    (step s (.fetchFailure id p)).fetches p = none ∧
    (step s (.fetchFailure id p)).fetchStatus id = some .failed ∧
    (step (step s (.fetchFailure id p)) (.ensure p)).fetches p
      = some (step s (.fetchFailure id p)).nextId ∧
    (step (step s (.fetchFailure id p)) (.ensure p)).contentCount p
      = s.contentCount p + 1 := by
  have hs1 : step s (.fetchFailure id p)
      = { s with
          fetchStatus := updN s.fetchStatus id (some .failed)
          fetches := upd s.fetches p none } := by
    simp [step, hstat]
  have h₁ : (step s (.fetchFailure id p)).fetches p = none := by
    rw [hs1]; exact upd_self s.fetches p none
  have h₂ : step (step s (.fetchFailure id p)) (.ensure p)
      = startFetch (step s (.fetchFailure id p)) p :=
    ensure_starts_fetch _ p h₁
  refine ⟨h₁, by rw [hs1]; simp [updN], ?_, ?_⟩
  · rw [h₂]
    exact upd_self _ p _
  · rw [h₂, hs1]
    simp [startFetch]

/-- Witness for C6: fetch 0 for `a.ts` fails; the following `ensure` issues a
second content-source call. -/
theorem fetch_failure_retries_witness :
    (step syncS1 (.fetchFailure 0 "a.ts")).fetches "a.ts" = none ∧
    (step syncS1 (.fetchFailure 0 "a.ts")).fetchStatus 0 = some .failed ∧
    (step (step syncS1 (.fetchFailure 0 "a.ts")) (.ensure "a.ts")).fetches "a.ts"
      = some (step syncS1 (.fetchFailure 0 "a.ts")).nextId ∧
    (step (step syncS1 (.fetchFailure 0 "a.ts")) (.ensure "a.ts")).contentCount "a.ts"
      = syncS1.contentCount "a.ts" + 1 :=
  fetch_failure_retries syncS1 "a.ts" 0 (by decide) (by decide)

/-- Counterexample for claim C1: in the spec's file-record model (a local
edit stores the edited text as the record's real content), an edit that lands
while a fetch is in flight is overwritten when the fetch completes — the
source's fetch writer performs no version comparison — so after the fetch
settles, reading the path returns the fetched text, not the edited text, even
though the edit bumped the version during the flight. -/
theorem fetch_overwrites_local_edit_cex :
    getContent (runTrace initState raceTrace) "a.ts" = some "REMOTE" ∧
    getContent (runTrace initState raceTrace) "a.ts" ≠ some "EDITED" ∧
    (runTrace initState raceTrace).versions "a.ts" = some 1 := by decide

/-- Amended claim C1: `FileSystemUpdater.fetch` writes the fetched content
unconditionally when the fetch settles — for every state, every version map
and every edit landing mid-flight, the completed fetch stores the fetched
text over the edited record (the version that the edit bumped
notwithstanding). -/
theorem fetch_completion_overwrites_edit (s : SyncState)
    (p text content : String) (id : Nat)
    (hstat : s.fetchStatus id = some .inflight) :
    getContent (step (step s (.didChange p text)) (.fetchSuccess id p content)) p
      = some content ∧
    (step s (.didChange p text)).versions p = some ((s.versions p).getD 0 + 1) := by
  constructor
  · simp [step, didChangeState, hstat, getContent, upd]
  · simp [step, didChangeState, upd]

/-- Witness for the amended C1 at the concrete race. -/
theorem fetch_completion_overwrites_edit_witness :
    getContent (step (step syncS1 (.didChange "a.ts" "EDITED"))
        (.fetchSuccess 0 "a.ts" "REMOTE")) "a.ts" = some "REMOTE" ∧
    (step syncS1 (.didChange "a.ts" "EDITED")).versions "a.ts"
      = some ((syncS1.versions "a.ts").getD 0 + 1) :=
  fetch_completion_overwrites_edit syncS1 "a.ts" "EDITED" "REMOTE" 0 (by decide)

/-- Claim C2, code bug: on the cyclic import graph a.ts ⇄ b.ts, one crawl
invocation with a fresh seen set and maxDepth 2 visits (and `ensure`s) a.ts
twice — the recursion never consults `seen` (the source only ever adds to
it), so paths are re-expanded inside a single crawl; only the depth bound
stops the recursion.  The crawl does terminate (the embedding is a total
function), but the at-most-once part of the claim is false. -/
theorem crawl_revisits_in_cycle :
    (ensureTransitiveFileDependencies cycleImports 2 "a.ts" ⟨[], []⟩).visits
      = ["a.ts", "b.ts", "a.ts"] ∧
    (ensureTransitiveFileDependencies cycleImports 2 "a.ts" ⟨[], []⟩).visits.count "a.ts"
      = 2 ∧
    (ensureTransitiveFileDependencies cycleImports 1 "a.ts" ⟨[], []⟩).seen
      = ["a.ts", "b.ts"] := by decide

/-- Counterexample for claim C7: a workspace whose only marker file lives in
a subdirectory (`proj/tsconfig.json` — a marker, outside node_modules) still
gets the catch-all root configuration, because the source only checks
`!rootdirs.has('')`, i.e. whether a marker exists in the workspace root
directory itself. -/
theorem createConfigurations_marker_subdir_cex :
    isMarkerPath "proj/tsconfig.json" = true ∧
    inNodeModules "proj/tsconfig.json" = false ∧
    (createConfigurations ["proj/tsconfig.json"] emptyConfigs).1 ""
      = some .catchAll ∧
    (createConfigurations ["proj/tsconfig.json"] emptyConfigs).1 "proj"
      = some (.fromMarker "proj/tsconfig.json") := by decide

/-- Root-lookup invariant of the `createConfigurations` loop: the
configuration registered for the workspace root directory is absent after
the scan exactly when it was absent before and no scanned path is a root
marker file. -/
theorem foldl_ccs_root_isNone (l : List String)
    (cfgs : String → Option ConfigEntry) (rds : List String) :
    ((l.foldl createConfigStep (cfgs, rds)).1 "").isNone
      = ((cfgs "").isNone && !l.any rootMarker) := by
  induction l generalizing cfgs rds with
  | nil => simp
  | cons p l ih =>
    by_cases hm : (isMarkerPath p && !inNodeModules p) = true
    · by_cases hd : dirOfRel p = ""
      · have hroot : rootMarker p = true := by
          simp [rootMarker, hd] at hm ⊢
          exact hm
        by_cases hc : (cfgs "").isNone
        · simp only [List.foldl_cons, createConfigStep, hm, if_true, hd, hc]
          rw [ih]
          simp [upd_self, hroot]
        · simp only [List.foldl_cons, createConfigStep, hm, if_true, hd,
            hc, if_neg]
          rw [ih]
          simp_all [hroot]
      · have hroot : rootMarker p = false := by
          simp [rootMarker, hd, hm]
        have hne : ("" : String) ≠ dirOfRel p := fun h => hd h.symm
        by_cases hc : ((cfgs (dirOfRel p)).isNone : Prop)
        · simp only [List.foldl_cons, createConfigStep, hm, if_true, hc]
          rw [ih]
          rw [upd_other _ _ _ _ hne]
          simp [hroot]
        · simp only [List.foldl_cons, createConfigStep, hm, if_true, hc,
            if_neg]
          rw [ih]
          simp [hroot, hc]
    · have hab : (isMarkerPath p && !inNodeModules p) = false := by
        revert hm
        cases isMarkerPath p && !inNodeModules p <;> simp
      have hroot : rootMarker p = false := by
        simp [rootMarker, hab]
      simp only [List.foldl_cons, createConfigStep, hm, if_neg,
        Bool.not_eq_true]
      rw [ih]
      simp [hroot]

/-- Rootdirs invariant of the `createConfigurations` loop: the scan records
the workspace root directory in `rootdirs` exactly when it was recorded
before or some scanned path is a root marker file. -/
theorem foldl_ccs_rootdirs (l : List String)
    (cfgs : String → Option ConfigEntry) (rds : List String) :
    (l.foldl createConfigStep (cfgs, rds)).2.contains ""
      = (rds.contains "" || l.any rootMarker) := by
  induction l generalizing cfgs rds with
  | nil => simp
  | cons p l ih =>
    by_cases hm : (isMarkerPath p && !inNodeModules p) = true
    · by_cases hd : dirOfRel p = ""
      · have hroot : rootMarker p = true := by
          simp [rootMarker, hd] at hm ⊢
          exact hm
        by_cases hr : rds.contains (dirOfRel p)
        · simp only [List.foldl_cons, createConfigStep, hm, if_true, hr]
          rw [ih]
          have hmem : "" ∈ rds := by
            have h₀ := hd ▸ hr
            simpa using h₀
          simp [hmem]
        · simp only [List.foldl_cons, createConfigStep, hm, if_true, hr,
            if_neg]
          rw [ih]
          simp [hroot, hd, List.mem_append]
      · have hroot : rootMarker p = false := by
          simp [rootMarker, hd, hm]
        by_cases hr : rds.contains (dirOfRel p)
        · simp only [List.foldl_cons, createConfigStep, hm, if_true, hr]
          rw [ih]
          simp [hroot]
        · simp only [List.foldl_cons, createConfigStep, hm, if_true, hr,
            if_neg]
          rw [ih]
          have hne : ¬ (("" : String) = dirOfRel p) := fun h => hd h.symm
          simp [hroot, List.mem_append, hne]
    · have hab : (isMarkerPath p && !inNodeModules p) = false := by
        revert hm
        cases isMarkerPath p && !inNodeModules p <;> simp
      have hroot : rootMarker p = false := by
        simp [rootMarker, hab]
      simp only [List.foldl_cons, createConfigStep, hm, if_neg,
        Bool.not_eq_true]
      rw [ih]
      simp [hroot]

/-- Catch-all absence invariant: the scan never stores the catch-all entry
(only `fromMarker` entries), so the root slot holds no catch-all after the
loop if it held none before. -/
theorem foldl_ccs_no_catchall (l : List String)
    (cfgs : String → Option ConfigEntry) (rds : List String)
    (h : cfgs "" ≠ some .catchAll) :
    (l.foldl createConfigStep (cfgs, rds)).1 "" ≠ some .catchAll := by
  induction l generalizing cfgs rds with
  | nil => exact h
  | cons p l ih =>
    by_cases hm : (isMarkerPath p && !inNodeModules p) = true
    · by_cases hc : ((cfgs (dirOfRel p)).isNone : Prop)
      · simp only [List.foldl_cons, createConfigStep, hm, if_true, hc]
        apply ih
        by_cases hd : ("" : String) = dirOfRel p
        · rw [hd, upd_self]
          intro hcontra
          exact ConfigEntry.noConfusion (Option.some.inj hcontra)
        · rw [upd_other _ _ _ _ hd]
          exact h
      · simp only [List.foldl_cons, createConfigStep, hm, if_true, hc,
          if_neg]
        exact ih cfgs _ h
    · simp only [List.foldl_cons, createConfigStep, hm, if_neg,
        Bool.not_eq_true]
      exact ih cfgs rds h

/-- Amended claim C7: starting from an empty registry,
`createConfigurations` adds the catch-all root configuration exactly when no
scanned path is a marker file sitting in the workspace root directory itself
(outside node_modules) — marker files in subdirectories do not prevent the
catch-all. -/
theorem createConfigurations_catchall_iff (relPaths : List String) :
    ((createConfigurations relPaths emptyConfigs).1 "" = some .catchAll)
      ↔ relPaths.any rootMarker = false := by
  have hnone := foldl_ccs_root_isNone relPaths emptyConfigs []
  have hrd := foldl_ccs_rootdirs relPaths emptyConfigs []
  have hnc := foldl_ccs_no_catchall relPaths emptyConfigs []
    (by intro h; exact Option.noConfusion h)
  have hstep : (createConfigurations relPaths emptyConfigs).1
      = (if !(relPaths.foldl createConfigStep (emptyConfigs, [])).2.contains ""
            && ((relPaths.foldl createConfigStep (emptyConfigs, [])).1 "").isNone
          then upd (relPaths.foldl createConfigStep (emptyConfigs, [])).1 ""
            (some .catchAll)
          else (relPaths.foldl createConfigStep (emptyConfigs, [])).1) := rfl
  rw [hstep]
  cases hany : relPaths.any rootMarker with
  | true =>
    rw [hany] at hrd hnone
    simp [emptyConfigs] at hrd hnone
    constructor
    · intro h
      rw [if_neg (by simp [hrd])] at h
      exact absurd h hnc
    · intro h
      simp at h
  | false =>
    rw [hany] at hrd hnone
    simp [emptyConfigs] at hrd hnone
    constructor
    · intro _
      rfl
    · intro _
      rw [if_pos (by simp [hrd, hnone])]
      exact upd_self _ "" _

/-- Counterexample for claim C8: `didSave` performs no version bump — after
an edit put `a.ts` at version 1, a `didSave` notification leaves the version
map pointwise unchanged, refuting the strict increment for `didSave`. -/
theorem didSave_does_not_increment_cex :
    verState.versions "a.ts" = some 1 ∧
    (step verState (.didSave "a.ts")).versions "a.ts" = some 1 ∧
    ¬ ((verState.versions "a.ts").getD 0
        < ((step verState (.didSave "a.ts")).versions "a.ts").getD 0) := by
  decide

/-- Amended claim C8: `didOpen`, `didChange` and `didClose` each strictly
increment the stored version of the affected path (absent versions count as
0, as in the source's `this.versions.get(filePath) || 0`); `didSave` leaves
the whole version map unchanged. -/
theorem local_edit_notifications_versions (s : SyncState) (p text : String) :
    (step s (.didOpen p text)).versions p = some ((s.versions p).getD 0 + 1) ∧
    (step s (.didChange p text)).versions p = some ((s.versions p).getD 0 + 1) ∧
    (step s (.didClose p)).versions p = some ((s.versions p).getD 0 + 1) ∧
    (s.versions p).getD 0 < ((step s (.didChange p text)).versions p).getD 0 ∧
    (step s (.didSave p)).versions = s.versions := by
  refine ⟨?_, ?_, ?_, ?_, rfl⟩
  · simp [step, didChangeState, upd]
  · simp [step, didChangeState, upd]
  · simp [step, upd]
  · simp [step, didChangeState, upd]

/-- Counterexample for claim C9: with a configuration registered for `proj`
but no root configuration, resolving `other/x.ts` walks `other/x.ts`,
`other`, reaches the root, finds no `''` entry and throws — even though a
configuration exists (at `proj`), refuting that it fails only when no
configuration exists at all. -/
theorem getConfiguration_throws_cex :
    getConfiguration cfgProjOnly "/root" "other/x.ts" = some none ∧
    cfgProjOnly "proj" = some (.fromMarker "proj/tsconfig.json") ∧
    getConfiguration cfgProjOnly "/root" "proj/src/x.ts"
      = some (some (.fromMarker "proj/tsconfig.json")) := by decide

/-- Amended claim C9: the upward walk falls back to the root (`''`)
configuration, so `getConfiguration` can throw only when no root
configuration is registered; whether configurations exist in unrelated
directories is never consulted outside the ancestor chain.  (Stated for
every fuel value, so it covers the walk regardless of its length.) -/
theorem getConfiguration_throws_only_without_root
    (configs : String → Option ConfigEntry) (rootPath : String)
    (fuel : Nat) (dir : String)
    (h : getConfigurationAux configs rootPath fuel dir = some none) :
    configs "" = none := by
  induction fuel generalizing dir with
  | zero => exact Option.noConfusion h
  | succ fuel ih =>
    by_cases hstop : dir = "" ∨ dir = rootPath
    · rw [getConfigurationAux, if_pos hstop] at h
      cases hcfg : configs "" with
      | none => rfl
      | some c =>
        rw [hcfg] at h
        exact Option.noConfusion (Option.some.inj h)
    · rw [getConfigurationAux, if_neg hstop] at h
      cases hcfg : configs dir with
      | none =>
        rw [hcfg] at h
        exact ih (dirOfRel dir) h
      | some c =>
        rw [hcfg] at h
        exact Option.noConfusion (Option.some.inj h)

/-- Witness for the amended C9: the concrete throwing walk implies the
absence of a root configuration in `cfgProjOnly`. -/
theorem getConfiguration_throws_only_without_root_witness :
    getConfigurationAux cfgProjOnly "/root" 11 "other/x.ts" = some none ∧
    cfgProjOnly "" = none :=
  ⟨by decide,
   getConfiguration_throws_only_without_root cfgProjOnly "/root" 11
     "other/x.ts" (by decide)⟩

/-- Counterexample for claim C5: after `init` fails to parse the
configuration source, the rejected promise stays cached in `initialized`
(nothing is cleared); a later `ensureConfigFile` — even with the
configuration source fixed — performs no parse and returns the cached
failure. -/
theorem configParseFailure_not_cleared_cex :
    cConfC5Failed.initialized = some (.error "Cannot parse tsconfig.json") ∧
    (cConfC5Failed.ensureConfigFile (.ok ⟨false⟩) ["a.ts"]).2.2 = false ∧
    (cConfC5Failed.ensureConfigFile (.ok ⟨false⟩) ["a.ts"]).2.1
      = .error "Cannot parse tsconfig.json" ∧
    cConfC5Failed.service = none :=
  ⟨rfl, rfl, rfl, rfl⟩

/-- Amended claim C5: a configuration-parse failure leaves the project
uninitialized in the sense that `service`, `program` and `host` are never
set, but the cached initialization state is NOT cleared: the rejection is
stored in `initialized`, and every subsequent `ensureConfigFile` call
returns the identical cached failure without re-parsing, until `reset()`. -/
theorem configParseFailure_cached (c : ProjectConfiguration) (msg : String)
    (exp : List String) (h0 : c.initialized = none)
    (h1 : c.configContent = none) :
    (c.ensureConfigFile (.error msg) exp).1.initialized = some (.error msg) ∧
    (c.ensureConfigFile (.error msg) exp).1.service = c.service ∧
    (c.ensureConfigFile (.error msg) exp).1.host = c.host ∧
    (c.ensureConfigFile (.error msg) exp).2.1 = .error msg ∧
    (c.ensureConfigFile (.error msg) exp).2.2 = true ∧
    (∀ pf exp₂,
      (c.ensureConfigFile (.error msg) exp).1.ensureConfigFile pf exp₂
        = ((c.ensureConfigFile (.error msg) exp).1, .error msg, false)) := by
  have hrun : c.ensureConfigFile (.error msg) exp
      = ({ c with initialized := some (.error msg) }, .error msg, true) := by
    simp [ProjectConfiguration.ensureConfigFile, ProjectConfiguration.init,
      h0, h1]
  rw [hrun]
  refine ⟨rfl, rfl, rfl, rfl, rfl, ?_⟩
  intro pf exp₂
  rfl

/-- Witness for the amended C5 at the concrete fresh configuration. -/
theorem configParseFailure_cached_witness :
    (cConfC5.ensureConfigFile (.error "bad") []).1.initialized
      = some (.error "bad") ∧
    (cConfC5.ensureConfigFile (.error "bad") []).1.service = cConfC5.service ∧
    (cConfC5.ensureConfigFile (.error "bad") []).1.host = cConfC5.host ∧
    (cConfC5.ensureConfigFile (.error "bad") []).2.1 = .error "bad" ∧
    (cConfC5.ensureConfigFile (.error "bad") []).2.2 = true ∧
    (∀ pf exp₂,
      (cConfC5.ensureConfigFile (.error "bad") []).1.ensureConfigFile pf exp₂
        = ((cConfC5.ensureConfigFile (.error "bad") []).1, .error "bad",
           false)) :=
  configParseFailure_cached cConfC5 "bad" [] rfl rfl

/-- Claim C10: `reset()` clears exactly the memoized state — the three
cached promises and the `service`/`program`/`host` objects — while the
configuration identity (`configFilePath`, `configContent`, `rootFilePath`,
`fs`, `traceModuleResolution`) and the shared per-file version map are left
untouched, so file version numbers survive a reset. -/
theorem reset_clears_exactly_memoized_state (c : ProjectConfiguration) :
    c.reset.initialized = none ∧
    c.reset.ensuredBasicFiles = none ∧
    c.reset.ensuredAllFiles = none ∧
    c.reset.service = none ∧
    c.reset.program = none ∧
    c.reset.host = none ∧
    c.reset.configFilePath = c.configFilePath ∧
    c.reset.configContent = c.configContent ∧
    c.reset.rootFilePath = c.rootFilePath ∧
    c.reset.fs = c.fs ∧
    c.reset.versions = c.versions ∧
    c.reset.traceModuleResolution = c.traceModuleResolution :=
  ⟨rfl, rfl, rfl, rfl, rfl, rfl, rfl, rfl, rfl, rfl, rfl, rfl⟩

end LangServer
